import Mathlib

/-!
Shallow embedding of the `bfx_postonly` package (a POST_ONLY enforcement
wrapper around a Bitfinex exchange client) and proofs about its order policy.

Python strings are modelled as `List Char`, Python integers as `ℤ`, numeric
amounts and prices as `ℚ`, optional keyword arguments as `Option`.  A raised
Python exception is modelled as the `.error` branch of `Except`; the constructor
of `PyError` records which exception class and message shape the code raises.

The guarded submission methods of `client.py` are embedded in two layers:
`restSubmitCall p` returns the keyword arguments with which the wrapped method
invokes the original transport capability (`.ok q` means the transport is
invoked exactly once with `q`; `.error e` means the exception `e` is raised and
the transport is invoked zero times), and `restSubmit orig p` is the whole
method body for a transport `orig`, returning the transport's result
unmodified.  The asynchronous WebSocket path (`async def _wrapped_submit_order`
in `client.py`) has a body identical to the synchronous one except for the
final `await`; running the coroutine to completion gives the same sequential
function, embedded as `wssSubmitCall` / `wssSubmit`.
-/

deriving instance DecidableEq for Except

/-- Python `str.upper()` on the characters of a string (the strings the policy
inspects are ASCII). From `order_type.upper()` in `utils.py` and
`decorators.py`. -/
def pyUpper (s : List Char) : List Char := s.map Char.toUpper

/-- Helper for substring search: `startsWithSeg hay needle` is true iff
`needle` is a prefix of `hay`. -/
def startsWithSeg : List Char → List Char → Bool
  | _, [] => true
  | [], _ :: _ => false
  | a :: as, b :: bs => a == b && startsWithSeg as bs

/-- Python's substring containment test `needle in hay` for strings:
true iff `needle` occurs contiguously in `hay`. -/
def containsSeg : List Char → List Char → Bool
  | [], needle => needle.isEmpty
  | a :: as, needle => startsWithSeg (a :: as) needle || containsSeg as needle

/-- The literal `"LIMIT"`. -/
def sLIMIT : List Char := "LIMIT".toList

/-- The literal `"MARKET"`. -/
def sMARKET : List Char := "MARKET".toList

/-- The literal `"type"`. -/
def sTYPE : List Char := "type".toList

/-- The literal `"symbol"`. -/
def sSYMBOL : List Char := "symbol".toList

/-- The literal `"amount"`. -/
def sAMOUNT : List Char := "amount".toList

/-- The literal `"EXCHANGE LIMIT"`. -/
def sEXCHANGE_LIMIT : List Char := "EXCHANGE LIMIT".toList

/-- The literal `"STOP LIMIT"`. -/
def sSTOP_LIMIT : List Char := "STOP LIMIT".toList

/-- The literal `"EXCHANGE STOP LIMIT"`. -/
def sEXCHANGE_STOP_LIMIT : List Char := "EXCHANGE STOP LIMIT".toList

/-- The literal `"EXCHANGE MARKET"`. -/
def sEXCHANGE_MARKET : List Char := "EXCHANGE MARKET".toList

/-- The literal `"STOP"`. -/
def sSTOP : List Char := "STOP".toList

/-- The literal `"FOK"`. -/
def sFOK : List Char := "FOK".toList

/-- The literal `"IOC"`. -/
def sIOC : List Char := "IOC".toList

/-- The literal `"LIMIT MARKET"` (an order-type string that contains both
substrings; used to separate the two classification rules). -/
def sLIMIT_MARKET : List Char := "LIMIT MARKET".toList

/-- The literal `"tBTCUSD"`. -/
def sTBTCUSD : List Char := "tBTCUSD".toList

/-- The literal `"HIDDEN"`. -/
def sHIDDEN : List Char := "HIDDEN".toList

/-- The literal `"CLOSE"`. -/
def sCLOSE : List Char := "CLOSE".toList

/-- The literal `"REDUCE_ONLY"`. -/
def sREDUCE_ONLY : List Char := "REDUCE_ONLY".toList

/-- The literal `"POST_ONLY"`. -/
def sPOST_ONLY : List Char := "POST_ONLY".toList

/-- The literal `"OCO"`. -/
def sOCO : List Char := "OCO".toList

/-- The literal `"NO_VWR"`. -/
def sNO_VWR : List Char := "NO_VWR".toList

/-- An order request: the keyword-argument surface of `submit_order`.
`none` in an `Option` field models an absent keyword argument (for `flags`
it also models an explicit Python `None`, which every consumer of `flags`
in this package treats exactly like an absent value).  `extra` models the
open set of exchange-specific passthrough keyword arguments the package
never inspects. -/
structure OrderParams where
  type : Option (List Char)
  symbol : Option (List Char)
  amount : Option ℚ
  price : Option ℚ
  flags : Option ℤ
  extra : List (List Char × List Char)
deriving DecidableEq, Repr

/-- The Python exceptions the package can raise, by class and message shape.
`missingParam`, `invalidOrderType`, `invalidAmount`, `priceRequired`,
`invalidPrice` and `unknownFlag` are builtin `ValueError`s raised in
`utils.py` (the payload is the value interpolated into the message);
`postOnlyNotSupported` is `PostOnlyViolationError` and `onlyLimitAllowed` /
`marketNotAllowed` are `InvalidOrderTypeError`, both defined in
`exceptions.py`; `configurationError` is `ConfigurationError` from
`exceptions.py`; `attributeError` is the builtin `AttributeError` of a failed
attribute lookup. -/
inductive PyError where
  | missingParam (name : List Char)
  | invalidOrderType (t : List Char)
  | invalidAmount
  | priceRequired
  | invalidPrice
  | postOnlyNotSupported (t : Option (List Char))
  | onlyLimitAllowed (t : List Char)
  | marketNotAllowed (t : List Char)
  | unknownFlag (name : List Char)
  | configurationError
  | attributeError
deriving DecidableEq, Repr

/-- Whether the exception is an instance of one of the exception classes the
package itself defines in `exceptions.py` (`PostOnlyViolationError`,
`InvalidOrderTypeError`, `ConfigurationError`), as opposed to a Python
builtin (`ValueError`, `AttributeError`). -/
def packageTypedError : PyError → Bool
  | .postOnlyNotSupported _ => true
  | .onlyLimitAllowed _ => true
  | .marketNotAllowed _ => true
  | .configurationError => true
  | _ => false

/-- `POST_ONLY_FLAG = 4096  # 0x1000` from `utils.py`. -/
def POST_ONLY_FLAG : ℤ := 4096

/-- `utils.is_limit_order`: empty string is falsy and returns `False`;
otherwise uppercase the string and require `"LIMIT"` to occur and
`"MARKET"` not to occur. -/
def is_limit_order (order_type : List Char) : Bool :=
  if order_type.isEmpty then false
  else
    containsSeg (pyUpper order_type) sLIMIT &&
      !containsSeg (pyUpper order_type) sMARKET

/-- `utils.has_post_only_flag`: `None` gives `False`; otherwise
`bool(flags & 4096)`, i.e. true iff the bitwise AND is nonzero. -/
def has_post_only_flag : Option ℤ → Bool
  | none => false
  | some f => decide (Int.land f POST_ONLY_FLAG ≠ 0)

/-- `utils.add_post_only_flag`: `None` (or absent) gives `4096`; otherwise
`flags | 4096`. -/
def add_post_only_flag : Option ℤ → ℤ
  | none => POST_ONLY_FLAG
  | some f => Int.lor f POST_ONLY_FLAG

/-- `utils.validate_order_parameters`: requires `type`, `symbol`, `amount`
to be present (in that order), then requires a limit-classified type, a
nonzero amount, a present price and a positive price.  The zero-amount and
nonpositive-price `ValueError`s raised inside the `try` blocks are caught by
the enclosing `except` clauses and re-raised as the `"Invalid amount"` /
`"Invalid price"` `ValueError`s, which is what `invalidAmount` /
`invalidPrice` record. -/
def validate_order_parameters (p : OrderParams) : Except PyError Unit :=
  match p.type with
  | none => .error (.missingParam sTYPE)
  | some t =>
    match p.symbol with
    | none => .error (.missingParam sSYMBOL)
    | some _ =>
      match p.amount with
      | none => .error (.missingParam sAMOUNT)
      | some a =>
        if is_limit_order t = false then .error (.invalidOrderType t)
        else if a = 0 then .error .invalidAmount
        else
          match p.price with
          | none => .error .priceRequired
          | some pr => if pr ≤ 0 then .error .invalidPrice else .ok ()

/-- `PostOnlyRESTWrapper._wrapped_submit_order` up to the transport call:
validate the parameters, then (re-checking the classification on
`kwargs.get("type", "")`) inject the POST_ONLY flag into `flags`, or raise
`PostOnlyViolationError` for a non-limit type.  `.ok q` means the original
`submit_order` is invoked exactly once with keyword arguments `q`; `.error e`
means `e` is raised and the transport is never invoked. -/
def restSubmitCall (p : OrderParams) : Except PyError OrderParams :=
  match validate_order_parameters p with
  | .error e => .error e
  | .ok _ =>
    if is_limit_order (p.type.getD []) then
      .ok { p with flags := some (add_post_only_flag p.flags) }
    else
      .error (.postOnlyNotSupported p.type)

/-- `PostOnlyRESTWrapper._wrapped_submit_order` with the original transport
`orig` plugged in: on acceptance the method returns `orig` applied to the
(possibly flag-augmented) keyword arguments, unmodified. -/
def restSubmit {α : Type} (orig : OrderParams → α) (p : OrderParams) :
    Except PyError α :=
  match validate_order_parameters p with
  | .error e => .error e
  | .ok _ =>
    if is_limit_order (p.type.getD []) then
      .ok (orig { p with flags := some (add_post_only_flag p.flags) })
    else
      .error (.postOnlyNotSupported p.type)

/-- The list of invocations of the original REST transport capability made by
one call of the guarded synchronous submit (each entry is the keyword
arguments of one invocation). -/
def restTransportCalls (p : OrderParams) : List OrderParams :=
  match restSubmitCall p with
  | .error _ => []
  | .ok q => [q]

/-- `PostOnlyWebSocketWrapper._wrapped_submit_order` up to the transport call:
the body is identical to the REST wrapper's, executed synchronously before
the single trailing `await` of the original coroutine. -/
def wssSubmitCall (p : OrderParams) : Except PyError OrderParams :=
  match validate_order_parameters p with
  | .error e => .error e
  | .ok _ =>
    if is_limit_order (p.type.getD []) then
      .ok { p with flags := some (add_post_only_flag p.flags) }
    else
      .error (.postOnlyNotSupported p.type)

/-- `PostOnlyWebSocketWrapper._wrapped_submit_order` with the original
transport coroutine `orig` plugged in (the coroutine run to completion). -/
def wssSubmit {α : Type} (orig : OrderParams → α) (p : OrderParams) :
    Except PyError α :=
  match validate_order_parameters p with
  | .error e => .error e
  | .ok _ =>
    if is_limit_order (p.type.getD []) then
      .ok (orig { p with flags := some (add_post_only_flag p.flags) })
    else
      .error (.postOnlyNotSupported p.type)

/-- The list of invocations of the original WebSocket transport capability
made by one call of the guarded asynchronous submit. -/
def wssTransportCalls (p : OrderParams) : List OrderParams :=
  match wssSubmitCall p with
  | .error _ => []
  | .ok q => [q]

/-- `decorators._validate_and_modify_order_params` (Python name has a leading
underscore): uppercase `kwargs.get("type", "")`, reject non-LIMIT and
MARKET-containing types with `InvalidOrderTypeError`, then ensure the
POST_ONLY bit is present in `flags` (`kwargs.get("flags", 0)`; a non-integer
value such as `None` is replaced by `4096`), returning the modified
keyword arguments. -/
def validate_and_modify_order_params (p : OrderParams) :
    Except PyError OrderParams :=
  if containsSeg (pyUpper (p.type.getD [])) sLIMIT = false then
    .error (.onlyLimitAllowed (pyUpper (p.type.getD [])))
  else if containsSeg (pyUpper (p.type.getD [])) sMARKET then
    .error (.marketNotAllowed (pyUpper (p.type.getD [])))
  else
    match p.flags with
    | some f =>
      if Int.land f POST_ONLY_FLAG = 0 then
        .ok { p with flags := some (Int.lor f POST_ONLY_FLAG) }
      else .ok p
    | none => .ok { p with flags := some POST_ONLY_FLAG }

/-- `utils.get_bitfinex_flags`: the fixed registry of flag names and values. -/
def get_bitfinex_flags : List (List Char × ℤ) :=
  [(sHIDDEN, 64), (sCLOSE, 512), (sREDUCE_ONLY, 1024),
   (sPOST_ONLY, 4096), (sOCO, 16384), (sNO_VWR, 262144)]

/-- Dictionary lookup in the flag registry (`flags_dict[flag_name_upper]`
guarded by the membership test). -/
def lookupFlag : List (List Char × ℤ) → List Char → Option ℤ
  | [], _ => none
  | (k, v) :: rest, n => if k = n then some v else lookupFlag rest n

/-- The value registered for a (already uppercased) flag name, if any. -/
def flagValue (n : List Char) : Option ℤ := lookupFlag get_bitfinex_flags n

/-- The loop of `utils.combine_flags`: fold bitwise OR over the named flag
values, uppercasing each name, raising `ValueError` at the first name not in
the registry (the message carries the original, non-uppercased name). -/
def combineAux : List (List Char) → ℤ → Except PyError ℤ
  | [], acc => .ok acc
  | n :: rest, acc =>
    match flagValue (pyUpper n) with
    | none => .error (.unknownFlag n)
    | some v => combineAux rest (Int.lor acc v)

/-- `utils.combine_flags(*flag_names)`: starts from `combined = 0`. -/
def combine_flags (names : List (List Char)) : Except PyError ℤ :=
  combineAux names 0

/-- Whether a flag name (after uppercasing) is in the registry. -/
def registeredFlag (n : List Char) : Bool := (flagValue (pyUpper n)).isSome

/-- The attribute shape of the external REST client consumed at wrapper
construction: whether `rest_client.auth` exists and whether
`rest_client.auth.submit_order` exists. -/
structure RESTClientShape where
  hasAuth : Bool
  hasSubmitOrder : Bool
deriving DecidableEq, Repr

/-- The attribute shape of the external WebSocket client consumed at wrapper
construction: whether `wss_client.inputs` exists and whether
`wss_client.inputs.submit_order` exists. -/
structure WSSClientShape where
  hasInputs : Bool
  hasSubmitOrder : Bool
deriving DecidableEq, Repr

/-- `PostOnlyRESTWrapper.__init__`: reads `rest_client.auth.submit_order`
unconditionally (a missing attribute raises the builtin `AttributeError`
before the guard is installed) and then rebinds it to the guarded version.
`.ok ()` means the wrapper object was constructed with its guard installed. -/
def mkPostOnlyRESTWrapper (c : RESTClientShape) : Except PyError Unit :=
  if c.hasAuth && c.hasSubmitOrder then .ok () else .error .attributeError

/-- `PostOnlyWebSocketWrapper.__init__`: rebinds
`wss_client.inputs.submit_order` only when `hasattr` finds it; never fails.
The result records whether the asynchronous guard was installed. -/
def mkPostOnlyWebSocketWrapper (c : WSSClientShape) : Bool :=
  c.hasInputs && c.hasSubmitOrder

/-- `PostOnlyClient.__init__` after the underlying `BfxClient` has been
built: constructs the REST wrapper (mandatory path) and then the WebSocket
wrapper (optional path).  On success, the Boolean records whether the
asynchronous guard was installed. -/
def mkPostOnlyClient (r : RESTClientShape) (w : WSSClientShape) :
    Except PyError Bool :=
  match mkPostOnlyRESTWrapper r with
  | .error e => .error e
  | .ok _ => .ok (mkPostOnlyWebSocketWrapper w)

/-- A limit order whose flags lack the POST_ONLY bit (`flags=0`), with all
structurally required fields supplied. -/
def limitOrderNoFlag : OrderParams :=
  { type := some sEXCHANGE_LIMIT, symbol := some sTBTCUSD, amount := some 1,
    price := some 30000, flags := some 0, extra := [] }

/-- `limitOrderNoFlag` as it reaches the transport: flags augmented to 4096. -/
def limitOrderPosted : OrderParams :=
  { type := some sEXCHANGE_LIMIT, symbol := some sTBTCUSD, amount := some 1,
    price := some 30000, flags := some 4096, extra := [] }

/-- A market order with all required fields supplied and even `flags=4096`. -/
def marketOrder : OrderParams :=
  { type := some sEXCHANGE_MARKET, symbol := some sTBTCUSD, amount := some 1,
    price := some 30000, flags := some 4096, extra := [] }

/-- Every bit of the constant 4096 is clear except bit 12. -/
theorem natTestBit4096 (i : ℕ) : Nat.testBit 4096 i = decide (i = 12) := by
  have h : (4096 : ℕ) = 2 ^ 12 := by norm_num
  rcases eq_or_ne i 12 with hi | hi
  · subst hi
    rw [h]
    simp [Nat.testBit_two_pow_self (n := 12)]
  · rw [h, Nat.testBit_two_pow_of_ne (Ne.symm hi)]
    simp [hi]

/-- Masking a natural number with 4096 is nonzero exactly when bit 12 is set. -/
theorem natAndPost (m : ℕ) : (m &&& 4096 ≠ 0) ↔ Nat.testBit m 12 = true := by
  have h : (4096 : ℕ) = 2 ^ 12 := by norm_num
  rw [h, Nat.and_two_pow]
  cases hb : Nat.testBit m 12 <;> simp [hb]

/-- Bitwise set difference of 4096 by `m` is nonzero exactly when bit 12 of
`m` is clear. -/
theorem natLdiffPost (m : ℕ) :
    (Nat.ldiff 4096 m ≠ 0) ↔ Nat.testBit m 12 = false := by
  constructor
  · intro hne
    by_contra hb
    rw [Bool.not_eq_false] at hb
    refine hne (Nat.zero_of_testBit_eq_false fun i => ?_)
    rw [Nat.testBit_ldiff, natTestBit4096]
    rcases eq_or_ne i 12 with hi | hi
    · subst hi; simp [hb]
    · simp [hi]
  · intro hb hz
    have h12 : (Nat.ldiff 4096 m).testBit 12 = false := by
      rw [hz]; exact Nat.zero_testBit 12
    rw [Nat.testBit_ldiff, natTestBit4096] at h12
    simp [hb] at h12

/-- After ORing 4096 into any integer, masking with 4096 is nonzero. -/
theorem intLandLorPost (f : ℤ) :
    Int.land (Int.lor f 4096) 4096 ≠ 0 := by
  cases f with
  | ofNat m =>
    show Int.ofNat ((m ||| 4096) &&& 4096) ≠ 0
    have h : (m ||| 4096) &&& 4096 ≠ 0 := by
      rw [natAndPost, Nat.testBit_lor, natTestBit4096]
      simp
    simpa using h
  | negSucc m =>
    show Int.ofNat (Nat.ldiff 4096 (Nat.ldiff m 4096)) ≠ 0
    have h : Nat.ldiff 4096 (Nat.ldiff m 4096) ≠ 0 := by
      rw [natLdiffPost, Nat.testBit_ldiff, natTestBit4096]
      simp
    simpa using h

/-- ORing the same integer in twice is the same as ORing it in once. -/
theorem intLorLorSelf (a v : ℤ) :
    Int.lor (Int.lor a v) v = Int.lor a v := by
  cases a with
  | ofNat m =>
    cases v with
    | ofNat n =>
      show Int.ofNat ((m ||| n) ||| n) = Int.ofNat (m ||| n)
      refine congrArg _ (Nat.eq_of_testBit_eq fun i => ?_)
      simp only [Nat.testBit_lor]
      cases Nat.testBit m i <;> cases Nat.testBit n i <;> rfl
    | negSucc n =>
      show Int.negSucc (Nat.ldiff n m &&& n) = Int.negSucc (Nat.ldiff n m)
      refine congrArg _ (Nat.eq_of_testBit_eq fun i => ?_)
      simp only [Nat.testBit_land, Nat.testBit_ldiff]
      cases Nat.testBit m i <;> cases Nat.testBit n i <;> rfl
  | negSucc m =>
    cases v with
    | ofNat n =>
      show Int.negSucc (Nat.ldiff (Nat.ldiff m n) n) = Int.negSucc (Nat.ldiff m n)
      refine congrArg _ (Nat.eq_of_testBit_eq fun i => ?_)
      simp only [Nat.testBit_ldiff]
      cases Nat.testBit m i <;> cases Nat.testBit n i <;> rfl
    | negSucc n =>
      show Int.negSucc ((m &&& n) &&& n) = Int.negSucc (m &&& n)
      refine congrArg _ (Nat.eq_of_testBit_eq fun i => ?_)
      simp only [Nat.testBit_land]
      cases Nat.testBit m i <;> cases Nat.testBit n i <;> rfl

/-- Bitwise OR of integers is right-commutative (used to reorder the
accumulator of the flag-combining fold). -/
theorem intLorRightComm (a b c : ℤ) :
    Int.lor (Int.lor a b) c = Int.lor (Int.lor a c) b := by
  cases a with
  | ofNat m =>
    cases b with
    | ofNat n =>
      cases c with
      | ofNat k =>
        show Int.ofNat ((m ||| n) ||| k) = Int.ofNat ((m ||| k) ||| n)
        refine congrArg _ (Nat.eq_of_testBit_eq fun i => ?_)
        simp only [Nat.testBit_lor]
        cases Nat.testBit m i <;> cases Nat.testBit n i <;> cases Nat.testBit k i <;> rfl
      | negSucc k =>
        show Int.negSucc (Nat.ldiff k (m ||| n)) = Int.negSucc (Nat.ldiff (Nat.ldiff k m) n)
        refine congrArg _ (Nat.eq_of_testBit_eq fun i => ?_)
        simp only [Nat.testBit_lor, Nat.testBit_ldiff]
        cases Nat.testBit m i <;> cases Nat.testBit n i <;> cases Nat.testBit k i <;> rfl
    | negSucc n =>
      cases c with
      | ofNat k =>
        show Int.negSucc (Nat.ldiff (Nat.ldiff n m) k) = Int.negSucc (Nat.ldiff n (m ||| k))
        refine congrArg _ (Nat.eq_of_testBit_eq fun i => ?_)
        simp only [Nat.testBit_lor, Nat.testBit_ldiff]
        cases Nat.testBit m i <;> cases Nat.testBit n i <;> cases Nat.testBit k i <;> rfl
      | negSucc k =>
        show Int.negSucc (Nat.ldiff n m &&& k) = Int.negSucc (Nat.ldiff k m &&& n)
        refine congrArg _ (Nat.eq_of_testBit_eq fun i => ?_)
        simp only [Nat.testBit_land, Nat.testBit_ldiff]
        cases Nat.testBit m i <;> cases Nat.testBit n i <;> cases Nat.testBit k i <;> rfl
  | negSucc m =>
    cases b with
    | ofNat n =>
      cases c with
      | ofNat k =>
        show Int.negSucc (Nat.ldiff (Nat.ldiff m n) k) = Int.negSucc (Nat.ldiff (Nat.ldiff m k) n)
        refine congrArg _ (Nat.eq_of_testBit_eq fun i => ?_)
        simp only [Nat.testBit_ldiff]
        cases Nat.testBit m i <;> cases Nat.testBit n i <;> cases Nat.testBit k i <;> rfl
      | negSucc k =>
        show Int.negSucc (Nat.ldiff m n &&& k) = Int.negSucc (Nat.ldiff (m &&& k) n)
        refine congrArg _ (Nat.eq_of_testBit_eq fun i => ?_)
        simp only [Nat.testBit_land, Nat.testBit_ldiff]
        cases Nat.testBit m i <;> cases Nat.testBit n i <;> cases Nat.testBit k i <;> rfl
    | negSucc n =>
      cases c with
      | ofNat k =>
        show Int.negSucc (Nat.ldiff (m &&& n) k) = Int.negSucc (Nat.ldiff m k &&& n)
        refine congrArg _ (Nat.eq_of_testBit_eq fun i => ?_)
        simp only [Nat.testBit_land, Nat.testBit_ldiff]
        cases Nat.testBit m i <;> cases Nat.testBit n i <;> cases Nat.testBit k i <;> rfl
      | negSucc k =>
        show Int.negSucc ((m &&& n) &&& k) = Int.negSucc ((m &&& k) &&& n)
        refine congrArg _ (Nat.eq_of_testBit_eq fun i => ?_)
        simp only [Nat.testBit_land]
        cases Nat.testBit m i <;> cases Nat.testBit n i <;> cases Nat.testBit k i <;> rfl

/-- If bit 12 of an integer is already set (its AND with 4096 is nonzero),
ORing 4096 in changes nothing. -/
theorem intLorPostOfLand (f : ℤ) (h : Int.land f 4096 ≠ 0) :
    Int.lor f 4096 = f := by
  cases f with
  | ofNat m =>
    have hm : Nat.testBit m 12 = true := by
      refine (natAndPost m).mp fun hz => h ?_
      show Int.ofNat (m &&& 4096) = 0
      rw [hz]; rfl
    show Int.ofNat (m ||| 4096) = Int.ofNat m
    refine congrArg _ (Nat.eq_of_testBit_eq fun i => ?_)
    rw [Nat.testBit_lor, natTestBit4096]
    rcases eq_or_ne i 12 with hi | hi
    · subst hi; simp [hm]
    · simp [hi]
  | negSucc m =>
    have hm : Nat.testBit m 12 = false := by
      refine (natLdiffPost m).mp fun hz => h ?_
      show Int.ofNat (Nat.ldiff 4096 m) = 0
      rw [hz]; rfl
    show Int.negSucc (Nat.ldiff m 4096) = Int.negSucc m
    refine congrArg _ (Nat.eq_of_testBit_eq fun i => ?_)
    rw [Nat.testBit_ldiff, natTestBit4096]
    rcases eq_or_ne i 12 with hi | hi
    · subst hi; simp [hm]
    · simp [hi]

/-- The guarded asynchronous submit computes the same transport invocation as
the guarded synchronous submit (their source bodies are identical). -/
theorem wssSubmitCall_eq_rest (p : OrderParams) : wssSubmitCall p = restSubmitCall p := rfl

/-- The two full guarded submits agree for any transport. -/
theorem wssSubmit_eq_rest {α : Type} (orig : OrderParams → α) (p : OrderParams) :
    wssSubmit orig p = restSubmit orig p := rfl

/-- The full guarded submit is the transport applied to the computed
invocation parameters: the underlying result is returned unmodified. -/
theorem restSubmit_map {α : Type} (orig : OrderParams → α) (p : OrderParams) :
    restSubmit orig p = (restSubmitCall p).map orig := by
  unfold restSubmit restSubmitCall
  cases validate_order_parameters p with
  | error e => rfl
  | ok u =>
    by_cases hl : is_limit_order (p.type.getD []) = true
    · rw [if_pos hl, if_pos hl]; rfl
    · rw [if_neg hl, if_neg hl]; rfl

/-- Inversion of an accepted guarded submit: validation passed, the type was
limit-classified, and the forwarded parameters are the input with the
POST_ONLY flag injected. -/
theorem restSubmitCall_ok_inv {p q : OrderParams}
    (h : restSubmitCall p = .ok q) :
    validate_order_parameters p = .ok () ∧
      is_limit_order (p.type.getD []) = true ∧
      q = { p with flags := some (add_post_only_flag p.flags) } := by
  unfold restSubmitCall at h
  cases hv : validate_order_parameters p with
  | error e => rw [hv] at h; simp at h
  | ok u =>
    cases u
    rw [hv] at h
    by_cases hl : is_limit_order (p.type.getD []) = true
    · rw [if_pos hl] at h
      refine ⟨rfl, hl, ?_⟩
      cases h
      rfl
    · rw [if_neg hl] at h
      simp at h

/-- An order that passes validation with a limit-classified type is accepted
and forwarded with the POST_ONLY flag injected. -/
theorem restSubmitCall_of_validate_ok {p : OrderParams}
    (hv : validate_order_parameters p = .ok ())
    (hl : is_limit_order (p.type.getD []) = true) :
    restSubmitCall p = .ok { p with flags := some (add_post_only_flag p.flags) } := by
  unfold restSubmitCall
  rw [hv, if_pos hl]

/-- Successful validation forces the type to be present and limit-classified. -/
theorem validate_ok_limit {p : OrderParams}
    (h : validate_order_parameters p = .ok ()) :
    ∃ t, p.type = some t ∧ is_limit_order t = true := by
  cases ht : p.type with
  | none => simp [validate_order_parameters, ht] at h
  | some t =>
    refine ⟨t, rfl, ?_⟩
    cases hs : p.symbol with
    | none => simp [validate_order_parameters, ht, hs] at h
    | some s =>
      cases ha : p.amount with
      | none => simp [validate_order_parameters, ht, hs, ha] at h
      | some a =>
        by_cases hl : is_limit_order t = false
        · simp [validate_order_parameters, ht, hs, ha, hl] at h
        · simpa using hl

/-- With the structurally required fields present, a non-limit type makes
validation fail with the order-type `ValueError` carrying the type string,
before amount, price or flags are ever inspected. -/
theorem validate_nonlimit {p : OrderParams} {t : List Char}
    (ht : p.type = some t) (hs : p.symbol.isSome = true)
    (ha : p.amount.isSome = true) (hlim : is_limit_order t = false) :
    validate_order_parameters p = .error (.invalidOrderType t) := by
  obtain ⟨s, hs2⟩ := Option.isSome_iff_exists.mp hs
  obtain ⟨a, ha2⟩ := Option.isSome_iff_exists.mp ha
  simp [validate_order_parameters, ht, hs2, ha2, hlim]

/-- Flags returned by `add_post_only_flag` always satisfy
`has_post_only_flag`. -/
theorem hasAfterAdd (fl : Option ℤ) :
    has_post_only_flag (some (add_post_only_flag fl)) = true := by
  cases fl with
  | none => decide
  | some f =>
    show decide (Int.land (Int.lor f POST_ONLY_FLAG) POST_ONLY_FLAG ≠ 0) = true
    exact decide_eq_true (intLandLorPost f)

/-- The flag-combining fold is invariant under permutation of registered
flag names. -/
theorem combineAux_perm {l₁ l₂ : List (List Char)} (h : l₁.Perm l₂) :
    ∀ _ : ∀ n ∈ l₁, registeredFlag n = true, ∀ acc : ℤ,
      combineAux l₁ acc = combineAux l₂ acc := by
  induction h with
  | nil => intro _ acc; rfl
  | cons x hp ih =>
    intro hr acc
    obtain ⟨v, hv⟩ := Option.isSome_iff_exists.mp (hr x (List.mem_cons_self x _))
    simp only [combineAux, hv]
    exact ih (fun n hn => hr n (List.mem_cons_of_mem _ hn)) _
  | swap x y l =>
    intro hr acc
    obtain ⟨vy, hvy⟩ := Option.isSome_iff_exists.mp (hr y (by simp))
    obtain ⟨vx, hvx⟩ := Option.isSome_iff_exists.mp (hr x (by simp))
    simp only [combineAux, hvy, hvx]
    rw [intLorRightComm acc vy vx]
  | trans h1 h2 ih1 ih2 =>
    intro hr acc
    rw [ih1 hr acc, ih2 (fun n hn => hr n (h1.mem_iff.mpr hn)) acc]

/-- Duplicating the head name does not change the flag-combining fold. -/
theorem combineAux_dup (n : List Char) (l : List (List Char)) (acc : ℤ) :
    combineAux (n :: n :: l) acc = combineAux (n :: l) acc := by
  cases hv : flagValue (pyUpper n) with
  | none => simp only [combineAux, hv]
  | some v => simp only [combineAux, hv, intLorLorSelf]

/-- C1 (amended): for every order submitted through the guarded synchronous or
asynchronous submit whose order type is classified as a limit order (here:
which passes structural validation, which entails limit classification) and
whose flags value lacks bit 4096, the guard does not reject; it silently sets
bit 4096 in the flags and invokes the underlying transport exactly once with
the augmented parameters.  No missing-flag violation exists in the code: this
is the flag-injecting variant of the policy. -/
theorem limit_without_flag_injected_and_submitted (p : OrderParams)
    (hv : validate_order_parameters p = .ok ())
    (_hf : has_post_only_flag p.flags = false) :
    restSubmitCall p = .ok { p with flags := some (add_post_only_flag p.flags) } ∧
    wssSubmitCall p = .ok { p with flags := some (add_post_only_flag p.flags) } ∧
    restTransportCalls p = [{ p with flags := some (add_post_only_flag p.flags) }] ∧
    wssTransportCalls p = [{ p with flags := some (add_post_only_flag p.flags) }] ∧
    has_post_only_flag (some (add_post_only_flag p.flags)) = true := by
  obtain ⟨t, ht, hl⟩ := validate_ok_limit hv
  have hl2 : is_limit_order (p.type.getD []) = true := by rw [ht]; exact hl
  have h1 := restSubmitCall_of_validate_ok hv hl2
  refine ⟨h1, (wssSubmitCall_eq_rest p).trans h1, ?_, ?_, hasAfterAdd p.flags⟩
  · unfold restTransportCalls; rw [h1]
  · unfold wssTransportCalls; rw [wssSubmitCall_eq_rest, h1]

/-- C1 (counterexample to the claim as stated): the fully valid limit order
with `flags=0` is not rejected by either guarded submit — both accept it, the
transport is invoked once (not zero times) with flags 4096, and the decorator
variant of the check likewise modifies rather than rejects. -/
theorem limit_without_flag_rejection_counterexample :
    has_post_only_flag limitOrderNoFlag.flags = false ∧
    restSubmitCall limitOrderNoFlag = .ok limitOrderPosted ∧
    wssSubmitCall limitOrderNoFlag = .ok limitOrderPosted ∧
    restTransportCalls limitOrderNoFlag = [limitOrderPosted] ∧
    wssTransportCalls limitOrderNoFlag = [limitOrderPosted] ∧
    validate_and_modify_order_params limitOrderNoFlag = .ok limitOrderPosted := by
  decide

/-- C1 (witness): the amended theorem applied to the concrete flagless limit
order. -/
theorem limit_without_flag_injected_witness :
    restSubmitCall limitOrderNoFlag =
      .ok { limitOrderNoFlag with flags := some (add_post_only_flag limitOrderNoFlag.flags) } :=
  (limit_without_flag_injected_and_submitted limitOrderNoFlag (by decide) (by decide)).1

/-- C2 (amended): for every order the guarded submit accepts, it forwards all
named parameters other than `flags` exactly as the caller supplied them and
returns the underlying result unmodified; `flags` is forwarded as the
caller-supplied value with bit 4096 set (so unchanged precisely when bit 4096
was already present). -/
theorem accepted_forwarding (p q : OrderParams) (h : restSubmitCall p = .ok q) :
    q.type = p.type ∧ q.symbol = p.symbol ∧ q.amount = p.amount ∧
    q.price = p.price ∧ q.extra = p.extra ∧
    q.flags = some (add_post_only_flag p.flags) ∧
    (has_post_only_flag p.flags = true → q = p) ∧
    (∀ (α : Type) (orig : OrderParams → α), restSubmit orig p = .ok (orig q)) := by
  obtain ⟨hv, hl, hq⟩ := restSubmitCall_ok_inv h
  subst hq
  refine ⟨rfl, rfl, rfl, rfl, rfl, rfl, ?_, ?_⟩
  · intro hhas
    cases hfl : p.flags with
    | none => rw [hfl] at hhas; simp [has_post_only_flag] at hhas
    | some f =>
      have hne : Int.land f POST_ONLY_FLAG ≠ 0 := by
        rw [hfl] at hhas
        simpa [has_post_only_flag] using hhas
      have hadd : add_post_only_flag (some f) = f := intLorPostOfLand f hne
      rw [hadd, ← hfl]
  · intro α orig
    rw [restSubmit_map, h]
    rfl

/-- C2 (counterexample to the claim as stated): the guard accepts the limit
order with `flags=0` but forwards it with `flags=4096`, so the flags named
parameter is not forwarded as the caller supplied it. -/
theorem accepted_forwarding_counterexample :
    restSubmitCall limitOrderNoFlag = .ok limitOrderPosted ∧
    limitOrderPosted.flags ≠ limitOrderNoFlag.flags := by decide

/-- C2 (witness): the amended theorem applied to the concrete flagless limit
order. -/
theorem accepted_forwarding_witness :
    limitOrderPosted.extra = limitOrderNoFlag.extra ∧
    limitOrderPosted.flags = some (add_post_only_flag limitOrderNoFlag.flags) := by
  have h := accepted_forwarding limitOrderNoFlag limitOrderPosted (by decide)
  exact ⟨h.2.2.2.2.1, h.2.2.2.2.2.1⟩

/-- C3 (confirmed): for every rejected order, on both the synchronous and the
asynchronous path, the violation is determined before the underlying
submission capability is consulted: a rejection means zero transport
invocations, and the guarded submit returns the same error for every possible
transport (so no partial submission can occur; in the coroutine, the check
runs before the single trailing await). -/
theorem rejected_order_zero_transport (p : OrderParams) (e : PyError) :
    (restSubmitCall p = .error e →
      restTransportCalls p = [] ∧
        ∀ (α : Type) (orig : OrderParams → α), restSubmit orig p = .error e) ∧
    (wssSubmitCall p = .error e →
      wssTransportCalls p = [] ∧
        ∀ (α : Type) (orig : OrderParams → α), wssSubmit orig p = .error e) := by
  constructor
  · intro h
    refine ⟨?_, ?_⟩
    · unfold restTransportCalls; rw [h]
    · intro α orig; rw [restSubmit_map, h]; rfl
  · intro h
    rw [wssSubmitCall_eq_rest] at h
    refine ⟨?_, ?_⟩
    · unfold wssTransportCalls; rw [wssSubmitCall_eq_rest, h]
    · intro α orig; rw [wssSubmit_eq_rest, restSubmit_map, h]; rfl

/-- C3 (witness): the theorem applied to the rejected market order on both
paths. -/
theorem rejected_order_zero_transport_witness :
    restTransportCalls marketOrder = [] ∧ wssTransportCalls marketOrder = [] :=
  ⟨((rejected_order_zero_transport marketOrder (.invalidOrderType sEXCHANGE_MARKET)).1 (by decide)).1,
   ((rejected_order_zero_transport marketOrder (.invalidOrderType sEXCHANGE_MARKET)).2 (by decide)).1⟩

/-- C4 (amended): the policy classifies an order-type string as a limit order
iff its uppercased form contains the substring LIMIT and does not contain the
substring MARKET; in particular STOP LIMIT and EXCHANGE STOP LIMIT are
classified as limit orders, while EXCHANGE MARKET, STOP, FOK and IOC are
not. -/
theorem limit_classification (s : List Char) :
    is_limit_order s =
      (containsSeg (pyUpper s) sLIMIT && !containsSeg (pyUpper s) sMARKET) ∧
    is_limit_order sSTOP_LIMIT = true ∧
    is_limit_order sEXCHANGE_STOP_LIMIT = true ∧
    is_limit_order sEXCHANGE_MARKET = false ∧
    is_limit_order sSTOP = false ∧
    is_limit_order sFOK = false ∧
    is_limit_order sIOC = false := by
  refine ⟨?_, by decide, by decide, by decide, by decide, by decide, by decide⟩
  cases s with
  | nil => decide
  | cons c cs => rfl

/-- C4 (counterexample to the claim as stated): the string LIMIT MARKET
contains the substring LIMIT in uppercased form, yet the policy does not
classify it as a limit order (the code additionally requires MARKET to be
absent). -/
theorem limit_classification_counterexample :
    containsSeg (pyUpper sLIMIT_MARKET) sLIMIT = true ∧
    is_limit_order sLIMIT_MARKET = false := by decide

/-- C5 (confirmed): for every order carrying the structurally required fields
whose type is not classified as a limit order, both guarded submits reject
with the order-type violation carrying the offending type string, for every
flags value (even 4096) — the flags are never consulted — and the transport is
invoked zero times. -/
theorem nonlimit_rejected (p : OrderParams) (t : List Char)
    (ht : p.type = some t) (hs : p.symbol.isSome = true)
    (ha : p.amount.isSome = true) (hlim : is_limit_order t = false) :
    restSubmitCall p = .error (.invalidOrderType t) ∧
    wssSubmitCall p = .error (.invalidOrderType t) ∧
    (∀ fl : Option ℤ,
      restSubmitCall { p with flags := fl } = .error (.invalidOrderType t) ∧
      wssSubmitCall { p with flags := fl } = .error (.invalidOrderType t)) ∧
    restTransportCalls p = [] ∧ wssTransportCalls p = [] := by
  have key : ∀ fl : Option ℤ,
      restSubmitCall { p with flags := fl } = .error (.invalidOrderType t) := by
    intro fl
    have hv := validate_nonlimit (p := { p with flags := fl }) ht hs ha hlim
    unfold restSubmitCall
    rw [hv]
  have hp : restSubmitCall p = .error (.invalidOrderType t) := by
    have hv := validate_nonlimit ht hs ha hlim
    unfold restSubmitCall
    rw [hv]
  refine ⟨hp, (wssSubmitCall_eq_rest p).trans hp,
    fun fl => ⟨key fl, (wssSubmitCall_eq_rest _).trans (key fl)⟩, ?_, ?_⟩
  · unfold restTransportCalls; rw [hp]
  · unfold wssTransportCalls; rw [wssSubmitCall_eq_rest, hp]

/-- C5 (witness): the theorem applied to the concrete market order, also at
flags 4096. -/
theorem nonlimit_rejected_witness :
    restSubmitCall marketOrder = .error (.invalidOrderType sEXCHANGE_MARKET) ∧
    restSubmitCall { marketOrder with flags := some 4096 } =
      .error (.invalidOrderType sEXCHANGE_MARKET) ∧
    restTransportCalls marketOrder = [] := by
  have h := nonlimit_rejected marketOrder sEXCHANGE_MARKET (by decide) (by decide)
    (by decide) (by decide)
  exact ⟨h.1, (h.2.2.1 (some 4096)).1, h.2.2.2.1⟩

/-- C6 (confirmed): every invocation that reaches the original submission
capability through either guarded wrapper carries a flags value with bit 4096
set, whatever flags the caller supplied (absent, None, 0, or any integer). -/
theorem transport_call_has_post_only (p q : OrderParams) :
    (restSubmitCall p = .ok q → has_post_only_flag q.flags = true) ∧
    (wssSubmitCall p = .ok q → has_post_only_flag q.flags = true) := by
  constructor
  · intro h
    obtain ⟨-, -, hq⟩ := restSubmitCall_ok_inv h
    subst hq
    exact hasAfterAdd p.flags
  · intro h
    rw [wssSubmitCall_eq_rest] at h
    obtain ⟨-, -, hq⟩ := restSubmitCall_ok_inv h
    subst hq
    exact hasAfterAdd p.flags

/-- C6 (witness): the theorem applied to the accepted flagless limit order. -/
theorem transport_call_has_post_only_witness :
    has_post_only_flag limitOrderPosted.flags = true :=
  (transport_call_has_post_only limitOrderNoFlag limitOrderPosted).1 (by decide)

/-- C7 (amended): if the mandatory synchronous order-submission capability
cannot be located on the external client, construction of the REST wrapper —
and hence of the whole client — fails by raising the builtin AttributeError
(the package defines no typed InitializationError), before any guard is
installed, so no wrapper object exists and the mandatory path is never usable
in a partially-guarded state. -/
theorem missing_sync_capability_construction (r : RESTClientShape) (w : WSSClientShape)
    (h : r.hasAuth = false ∨ r.hasSubmitOrder = false) :
    mkPostOnlyRESTWrapper r = .error .attributeError ∧
    mkPostOnlyClient r w = .error .attributeError ∧
    packageTypedError .attributeError = false := by
  have hb : (r.hasAuth && r.hasSubmitOrder) = false := by
    rcases h with h | h <;> simp [h]
  refine ⟨?_, ?_, rfl⟩
  · simp [mkPostOnlyRESTWrapper, hb]
  · simp [mkPostOnlyClient, mkPostOnlyRESTWrapper, hb]

/-- C7 (witness): the amended theorem applied to a client whose auth object
lacks a submit_order attribute. -/
theorem missing_sync_capability_construction_witness :
    mkPostOnlyRESTWrapper { hasAuth := true, hasSubmitOrder := false } =
      .error .attributeError :=
  (missing_sync_capability_construction { hasAuth := true, hasSubmitOrder := false }
    { hasInputs := true, hasSubmitOrder := true } (Or.inr rfl)).1

/-- C7 (counterexample to the claim as stated): construction does fail when
the synchronous capability is absent, but with the builtin AttributeError,
which is not one of the exception classes the package defines — no typed
InitializationError exists in the code. -/
theorem construction_error_untyped_counterexample :
    mkPostOnlyRESTWrapper { hasAuth := true, hasSubmitOrder := false } =
      .error .attributeError ∧
    mkPostOnlyClient { hasAuth := true, hasSubmitOrder := false }
      { hasInputs := true, hasSubmitOrder := true } = .error .attributeError ∧
    packageTypedError PyError.attributeError = false := by decide

/-- C8 (confirmed): combining zero names yields 0; for registered names the
combination is invariant under permutation of the names; a duplicated name is
idempotent; and combining POST_ONLY with HIDDEN in either order gives
4096 ||| 64. -/
theorem combine_flags_algebra :
    combine_flags [] = .ok 0 ∧
    (∀ l₁ l₂ : List (List Char), l₁.Perm l₂ →
      (∀ n ∈ l₁, registeredFlag n = true) → combine_flags l₁ = combine_flags l₂) ∧
    (∀ (n : List Char) (l : List (List Char)),
      combine_flags (n :: n :: l) = combine_flags (n :: l)) ∧
    combine_flags [sPOST_ONLY, sHIDDEN] = combine_flags [sHIDDEN, sPOST_ONLY] ∧
    combine_flags [sPOST_ONLY, sHIDDEN] = .ok (Int.lor 4096 64) := by
  refine ⟨rfl, ?_, ?_, by decide, by decide⟩
  · intro l₁ l₂ hperm hreg
    exact combineAux_perm hperm hreg 0
  · intro n l
    exact combineAux_dup n l 0

/-- C8 (witness): the permutation-invariance part of the theorem applied to a
concrete permutation of three registered names. -/
theorem combine_flags_algebra_witness :
    combine_flags [sPOST_ONLY, sHIDDEN, sOCO] =
      combine_flags [sOCO, sHIDDEN, sPOST_ONLY] :=
  combine_flags_algebra.2.1 [sPOST_ONLY, sHIDDEN, sOCO] [sOCO, sHIDDEN, sPOST_ONLY]
    (by decide) (by decide)

/-- C9 (confirmed): the add operation is idempotent for every integer (and
for an absent flags value), returns the supplied flags bitwise-ORed with
4096, and maps an absent flags value to 4096. -/
theorem add_post_only_flag_idempotent (f : Option ℤ) (g : ℤ) :
    add_post_only_flag (some (add_post_only_flag f)) = add_post_only_flag f ∧
    add_post_only_flag (some g) = Int.lor g 4096 ∧
    add_post_only_flag none = 4096 ∧ POST_ONLY_FLAG = 4096 := by
  refine ⟨?_, rfl, rfl, rfl⟩
  cases f with
  | none => decide
  | some x =>
    show Int.lor (Int.lor x POST_ONLY_FLAG) POST_ONLY_FLAG = Int.lor x POST_ONLY_FLAG
    exact intLorLorSelf x POST_ONLY_FLAG

/-- C10 (confirmed): the has operation returns true iff bit 12 (value 4096,
the POST_ONLY bit) is set in the flags integer, and an absent/None flags
value yields false; the operation is total, never an error. -/
theorem has_post_only_flag_bit (f : ℤ) :
    (has_post_only_flag (some f) = true ↔ Int.testBit f 12 = true) ∧
    has_post_only_flag none = false := by
  refine ⟨?_, rfl⟩
  show decide (Int.land f POST_ONLY_FLAG ≠ 0) = true ↔ Int.testBit f 12 = true
  rw [decide_eq_true_eq]
  cases f with
  | ofNat m =>
    show Int.ofNat (m &&& 4096) ≠ 0 ↔ Nat.testBit m 12 = true
    rw [← natAndPost]
    simp [Int.ofNat_eq_zero]
  | negSucc m =>
    show Int.ofNat (Nat.ldiff 4096 m) ≠ 0 ↔ (!Nat.testBit m 12) = true
    have hh : Int.ofNat (Nat.ldiff 4096 m) ≠ 0 ↔ Nat.ldiff 4096 m ≠ 0 := by
      simp [Int.ofNat_eq_zero]
    rw [hh, natLdiffPost]
    cases Nat.testBit m 12 <;> simp
